import Mathlib

/-!
Transaction helper `db.InTx` and the subscription services.

A shallow embedding of `pkg/db/tx.go`, `pkg/service/service.go`,
`pkg/service/service-connection-leak.go` and `pkg/service-connection-leak.go`.

The database handle, the pool and the driver are external to the repository.
They are represented by

* a state `DB` (the pool's in-use counter and the trace of calls made on the
  handle so far), threaded through every function, and
* an environment `Env` of oracles giving the result of every driver call as a
  function of the history, so that the theorems hold whatever the driver
  answers.

Go's `error` is `Option GoError` (`none` is `nil`).  A function that may
panic returns an `Exit`.
-/

/-- A non-nil Go `error` value. -/
abbrev GoError := String

/-- The value of a panic in flight, as `recover()` hands it to a deferred
function: a Go interface value, `none` being nil. It is nil when the function
called `panic(nil)` in a program built with a `go` line of 1.20 or older or
run with `GODEBUG=panicnil=1`; otherwise the runtime delivers `panic(nil)` as
a `*runtime.PanicNilError`, which is a value `some v`. -/
abbrev PanicValue := Option String

/-- A `context.Context`: the background context or one derived by
`context.WithCancel`. -/
inductive Context where
  | Background
  | WithCancel (parent : Context)
  deriving DecidableEq, Repr

/-- The calls observed on the database handle, its transaction and the
derived context, in program order. -/
inductive Event where
  /-- The call `context.WithCancel(parent)`. -/
  | withCancel (parent : Context)
  /-- The call `db.BeginTxx(ctx, nil)`. -/
  | beginTxx (ctx : Context)
  /-- The literal `&TxWrap` with `tx` and `ctx`. -/
  | newTxWrap (ctx : Context)
  /-- The call `txFunc(txWrap)` is entered. -/
  | callTxFunc
  /-- The call `tx.GetContext(ctx, dest, query, args...)`. -/
  | get (ctx : Context) (query : String) (args : List Int)
  /-- The call `tx.SelectContext(ctx, dest, query, args...)`. -/
  | select (ctx : Context) (query : String) (args : List Int)
  /-- The call `tx.ExecContext(ctx, query, args...)`. -/
  | exec (ctx : Context) (query : String) (args : List Int)
  /-- The call `tx.Commit()`. -/
  | commit
  /-- The call `tx.Rollback()`. -/
  | rollback
  /-- The `cancel` function of the derived context `ctx` is called. -/
  | cancel (ctx : Context)
  deriving DecidableEq, Repr

/-- The observable state of `*sqlx.DB`: `Stats().InUse` and the history. -/
structure DB where
  InUse : Nat
  trace : List Event
  deriving DecidableEq, Repr

/-- The driver's answers, each a function of the history of calls. `ρ` is the
type of a scanned row. -/
structure Env (ρ : Type) where
  beginTxx : List Event → Option GoError
  get : List Event → String → List Int → ρ × Option GoError
  select : List Event → String → List Int → List ρ × Option GoError
  exec : List Event → String → List Int → Nat × Option GoError
  commit : List Event → Option GoError
  rollback : List Event → Option GoError

/-- How a Go call ends: it returns a value or it panics. -/
inductive Exit (α : Type) where
  | returned (a : α)
  | panicked (p : PanicValue)
  deriving DecidableEq, Repr

/-- A `*sqlx.Tx`: `done` is set by the first `Commit` or `Rollback`. -/
structure Tx where
  done : Bool
  deriving DecidableEq, Repr

/-- The error `sql.ErrTxDone`. -/
def ErrTxDone : GoError := "sql: transaction has already been committed or rolled back"

/-- Append one event to the history. -/
def DB.emit (s : DB) (e : Event) : DB := { s with trace := s.trace ++ [e] }

/-- Number of `Commit` attempts in a history. -/
def commits (t : List Event) : Nat := t.count Event.commit

/-- Number of `Rollback` attempts in a history. -/
def rollbacks (t : List Event) : Nat := t.count Event.rollback

/-- Number of `cancel` calls for the context `c` in a history. -/
def cancels (c : Context) (t : List Event) : Nat := t.count (Event.cancel c)

/-- The call `db.BeginTxx(ctx, nil)`: on success a connection is taken from the pool. -/
def DB.BeginTxx {ρ : Type} (env : Env ρ) (ctx : Context) (s : DB) : Except GoError Tx × DB :=
  match env.beginTxx s.trace with
  | some e => (.error e, s.emit (.beginTxx ctx))
  | none => (.ok ⟨false⟩, { InUse := s.InUse + 1, trace := s.trace ++ [.beginTxx ctx] })

/-- The call `tx.Commit()`: the first attempt on the transaction gives its connection
back to the pool; on a finished transaction it only returns `ErrTxDone`. -/
def Tx.Commit {ρ : Type} (env : Env ρ) (tx : Tx) (s : DB) : Option GoError × Tx × DB :=
  if tx.done then (some ErrTxDone, tx, s.emit .commit)
  else (env.commit s.trace, ⟨true⟩, { InUse := s.InUse - 1, trace := s.trace ++ [.commit] })

/-- The call `tx.Rollback()`: the first attempt on the transaction gives its connection
back to the pool; on a finished transaction it only returns `ErrTxDone`. -/
def Tx.Rollback {ρ : Type} (env : Env ρ) (tx : Tx) (s : DB) : Option GoError × Tx × DB :=
  if tx.done then (some ErrTxDone, tx, s.emit .rollback)
  else (env.rollback s.trace, ⟨true⟩, { InUse := s.InUse - 1, trace := s.trace ++ [.rollback] })

/-- The call `tx.GetContext(ctx, dest, query, args...)` on a zero-valued `dest`: the
content of `dest` afterwards and the error. -/
def Tx.GetContext {ρ : Type} (env : Env ρ) (ctx : Context) (query : String) (args : List Int)
    (s : DB) : (ρ × Option GoError) × DB :=
  (env.get s.trace query args, s.emit (.get ctx query args))

/-- The call `tx.SelectContext(ctx, dest, query, args...)`. -/
def Tx.SelectContext {ρ : Type} (env : Env ρ) (ctx : Context) (query : String) (args : List Int)
    (s : DB) : (List ρ × Option GoError) × DB :=
  (env.select s.trace query args, s.emit (.select ctx query args))

/-- The call `tx.ExecContext(ctx, query, args...)`. -/
def Tx.ExecContext {ρ : Type} (env : Env ρ) (ctx : Context) (query : String) (args : List Int)
    (s : DB) : (Nat × Option GoError) × DB :=
  (env.exec s.trace query args, s.emit (.exec ctx query args))

/-- The call `sqlx.Tx.Get(dest, query, args...)`: `GetContext` with the background
context. -/
def Tx.Get {ρ : Type} (env : Env ρ) (query : String) (args : List Int) (s : DB) :
    (ρ × Option GoError) × DB :=
  Tx.GetContext env Context.Background query args s

namespace db

/-- The type `TxWrap`, `tx.go` lines 12-15. -/
structure TxWrap where
  tx : Tx
  ctx : Context
  deriving DecidableEq, Repr

/-- Method `(*TxWrap).Get`, `tx.go` lines 19-21. -/
def TxWrap.Get {ρ : Type} (env : Env ρ) (tx : TxWrap) (query : String) (args : List Int)
    (s : DB) : (ρ × Option GoError) × DB :=
  Tx.GetContext env tx.ctx query args s

/-- Method `(*TxWrap).Select`, `tx.go` lines 25-27. -/
def TxWrap.Select {ρ : Type} (env : Env ρ) (tx : TxWrap) (query : String) (args : List Int)
    (s : DB) : (List ρ × Option GoError) × DB :=
  Tx.SelectContext env tx.ctx query args s

/-- Method `(*TxWrap).Exec`, `tx.go` lines 29-31. -/
def TxWrap.Exec {ρ : Type} (env : Env ρ) (tx : TxWrap) (query : String) (args : List Int)
    (s : DB) : (Nat × Option GoError) × DB :=
  Tx.ExecContext env tx.ctx query args s

/-- A `func(*TxWrap) error`: a program that reaches the transaction only
through the three exported methods of `TxWrap`, each continuation receiving
the driver's answer, and that ends by returning an error or by panicking.
`σ` holds the variables the closure captures, as they are when it ends. -/
inductive TxFunc (ρ σ : Type) where
  | ret (st : σ) (err : Option GoError)
  | panics (st : σ) (p : PanicValue)
  | Get (query : String) (args : List Int) (k : ρ × Option GoError → TxFunc ρ σ)
  | Select (query : String) (args : List Int) (k : List ρ × Option GoError → TxFunc ρ σ)
  | Exec (query : String) (args : List Int) (k : Nat × Option GoError → TxFunc ρ σ)

/-- Run `txFunc(txWrap)`: how it ends, the captured variables, the state. -/
def TxFunc.run {ρ σ : Type} (env : Env ρ) (w : TxWrap) :
    TxFunc ρ σ → DB → Exit (Option GoError) × σ × DB
  | .ret st err, s => (.returned err, st, s)
  | .panics st p, s => (.panicked p, st, s)
  | .Get q a k, s => TxFunc.run env w (k (w.Get env q a s).1) (w.Get env q a s).2
  | .Select q a k, s => TxFunc.run env w (k (w.Select env q a s).1) (w.Select env q a s).2
  | .Exec q a k, s => TxFunc.run env w (k (w.Exec env q a s).1) (w.Exec env q a s).2

/-- What a call of `InTx` leaves behind: how it ended, the variables captured
by `txFunc`, and the state of the database handle. -/
structure Outcome (σ : Type) where
  exit : Exit (Option GoError)
  captured : σ
  db : DB

/-- The deferred closure of `InTx`, `tx.go` lines 51-61. `recovered` is the
result of `recover()`: nil (`none`) when no panic is in flight and also when
the panic in flight carries nil; the call of `recover()` stops the panic in
both cases. `err` is the named result. -/
def InTx.deferred {ρ : Type} (env : Env ρ) (txWrap : TxWrap) (recovered : PanicValue)
    (err : Option GoError) (s : DB) : Exit (Option GoError) × DB :=
  match recovered with
  | some v =>
    -- if p := recover(); p != nil: _ = txWrap.tx.Rollback(); panic(p)
    (.panicked (some v), (Tx.Rollback env txWrap.tx s).2.2)
  | none =>
    match err with
    | some e =>
      -- _ = txWrap.tx.Rollback(); return
      (.returned (some e), (Tx.Rollback env txWrap.tx s).2.2)
    | none =>
      -- err = txWrap.tx.Commit()
      (.returned (Tx.Commit env txWrap.tx s).1, (Tx.Commit env txWrap.tx s).2.2)

/-- The state in which `InTx` enters `txFunc`, given that begin succeeded. -/
def InTx.entry (ctx : Context) (s : DB) : DB :=
  { InUse := s.InUse + 1,
    trace := s.trace ++ [.withCancel ctx, .beginTxx (.WithCancel ctx),
      .newTxWrap (.WithCancel ctx), .callTxFunc] }

/-- Function `InTx`, `tx.go` lines 37-64. `st` holds the variables `txFunc` captures. -/
def InTx {ρ σ : Type} (env : Env ρ) (ctx : Context) (txFunc : TxFunc ρ σ) (st : σ) (s : DB) :
    Outcome σ :=
  -- ctx, cancel := context.WithCancel(ctx); defer cancel()
  let parent := ctx
  let ctx := Context.WithCancel parent
  let s := s.emit (.withCancel parent)
  -- tx, err := db.BeginTxx(ctx, nil)
  match DB.BeginTxx env ctx s with
  | (.error err, s) =>
    -- return err, then the deferred cancel()
    ⟨.returned (some err), st, s.emit (.cancel ctx)⟩
  | (.ok tx, s) =>
    let txWrap : TxWrap := ⟨tx, ctx⟩
    let s := s.emit (.newTxWrap ctx)
    -- return txFunc(txWrap)
    let r := TxFunc.run env txWrap txFunc (s.emit .callTxFunc)
    -- the deferred closure, then the deferred cancel(); when txFunc panicked
    -- the named result err is still the nil that BeginTxx returned
    let d := match r.1 with
      | .panicked p => InTx.deferred env txWrap p none r.2.2
      | .returned err => InTx.deferred env txWrap none err r.2.2
    ⟨d.1, r.2.1, d.2.emit (.cancel ctx)⟩

/-- The `TxWrap` that `InTx` hands to `txFunc`. -/
def InTx.txWrap (ctx : Context) : TxWrap := ⟨⟨false⟩, .WithCancel ctx⟩

/-- The statements a `txFunc` issues when run from state `s`, in order. -/
def TxFunc.stmts {ρ σ : Type} (env : Env ρ) (w : TxWrap) : TxFunc ρ σ → DB → List Event
  | .ret _ _, _ => []
  | .panics _ _, _ => []
  | .Get q a k, s =>
    Event.get w.ctx q a :: TxFunc.stmts env w (k (w.Get env q a s).1) (w.Get env q a s).2
  | .Select q a k, s =>
    Event.select w.ctx q a :: TxFunc.stmts env w (k (w.Select env q a s).1) (w.Select env q a s).2
  | .Exec q a k, s =>
    Event.exec w.ctx q a :: TxFunc.stmts env w (k (w.Exec env q a s).1) (w.Exec env q a s).2

/-- An event is a statement issued through a `TxWrap` bound to `c`. -/
def isStmtOf (c : Context) : Event → Bool
  | .get c' _ _ => decide (c' = c)
  | .select c' _ _ => decide (c' = c)
  | .exec c' _ _ => decide (c' = c)
  | _ => false

end db

/-- The struct `sql.NullTime`: the time (as rendered text)
and whether it is not NULL. -/
structure NullTime where
  Time : String
  Valid : Bool
  deriving DecidableEq, Repr

/-- The struct `Subscription`, declared alike in `pkg/service` and in `pkg`. -/
structure Subscription where
  ID : Int
  Status : String
  CanceledAt : NullTime
  deriving DecidableEq, Repr

/-- The zero value of `Subscription` (`var sub Subscription`). -/
def Subscription.zero : Subscription := ⟨0, "", ⟨"", false⟩⟩

/-- The query of every `GetSubscription`. -/
def selectSubscription : String := "SELECT * FROM subscription WHERE id = $1"

namespace service

/-- The query of `CancelSubscription` in `pkg/service`. -/
def updateSubscription : String :=
  "UPDATE subscription SET canceled_at = NOW(), status='canceled' WHERE id = $1 RETURNING *"

/-- Method `(*txRepo).GetSubscription`, `service.go` lines 18-26, in
continuation style: `k` is the rest of the caller's closure. -/
def txRepo.GetSubscription {σ : Type} (id : Int)
    (k : Subscription × Option GoError → db.TxFunc Subscription σ) : db.TxFunc Subscription σ :=
  -- err := tx.Get(&sub, "SELECT ...", id)
  .Get selectSubscription [id] fun r =>
    match r.2 with
    | some err => k (r.1, some err)
    | none => k (r.1, none)

/-- Method `(*txRepo).CancelSubscription`, `service.go` lines 30-38. -/
def txRepo.CancelSubscription {σ : Type} (id : Int)
    (k : Subscription × Option GoError → db.TxFunc Subscription σ) : db.TxFunc Subscription σ :=
  -- err := tx.Get(&sub, "UPDATE ...", id)
  .Get updateSubscription [id] fun r =>
    match r.2 with
    | some err => k (r.1, some err)
    | none => k (r.1, none)

/-- The closure passed to `db.InTx` in `CancelSubscriptionWithoutLeak`,
`service.go` lines 57-77. It captures `sub` and `err`. -/
def txService.CancelSubscriptionWithoutLeak.txFunc (id : Int) :
    db.TxFunc Subscription (Subscription × Option GoError) :=
  -- sub, err = s.repo.GetSubscription(tx, id)
  txRepo.GetSubscription id fun r =>
    match r.2 with
    | some err => .ret (r.1, some err) (some err)
    | none =>
      if r.1.Status ≠ "active" then .ret (r.1, none) none
      else if r.1.CanceledAt.Valid then .ret (r.1, none) none
      else
        -- sub, err = s.repo.CancelSubscription(tx, id)
        txRepo.CancelSubscription id fun c =>
          match c.2 with
          | some err => .ret (c.1, some err) (some err)
          | none => .ret (c.1, none) none

/-- Method `(*txService).CancelSubscriptionWithoutLeak`, `service.go` lines
53-80: the pair `(&sub, err)` it returns, unless `InTx` panics. -/
def txService.CancelSubscriptionWithoutLeak (env : Env Subscription) (ctx : Context) (id : Int)
    (s : DB) : Exit (Subscription × Option GoError) × DB :=
  -- var sub Subscription; var err error; err = db.InTx(ctx, s.db, func ...)
  let o := db.InTx env ctx (txService.CancelSubscriptionWithoutLeak.txFunc id)
    (Subscription.zero, none) s
  match o.exit with
  | .returned err => (.returned (o.captured.1, err), o.db)
  | .panicked p => (.panicked p, o.db)

/-- Method `(*srepo).GetSubscription`, `service-connection-leak.go` lines 21-29. -/
def srepo.GetSubscription (env : Env Subscription) (_tx : Tx) (id : Int) (s : DB) :
    (Subscription × Option GoError) × DB :=
  let r := Tx.Get env selectSubscription [id] s
  match r.1.2 with
  | some err => ((r.1.1, some err), r.2)
  | none => ((r.1.1, none), r.2)

/-- Method `(*srepo).CancelSubscription`, `service-connection-leak.go` lines 34-42. -/
def srepo.CancelSubscription (env : Env Subscription) (_tx : Tx) (id : Int) (s : DB) :
    (Subscription × Option GoError) × DB :=
  let r := Tx.Get env updateSubscription [id] s
  match r.1.2 with
  | some err => ((r.1.1, some err), r.2)
  | none => ((r.1.1, none), r.2)

/-- What the body of `CancelSubscription` leaves when it reaches a `return`:
the two results, the local variable `err`, the transaction and the state. -/
structure Service.Frame where
  sub : Option Subscription
  result : Option GoError
  err : Option GoError
  tx : Tx
  db : DB
  deriving DecidableEq, Repr

/-- Lines 68-88 of `(*Service).CancelSubscription`, up to the `return`. -/
def Service.CancelSubscription.body (env : Env Subscription) (tx : Tx) (id : Int) (s : DB) :
    Service.Frame :=
  -- sub, err := s.repo.GetSubscription(tx, id)
  let g := srepo.GetSubscription env tx id s
  match g.1.2 with
  | some err => ⟨none, some err, some err, tx, g.2⟩
  | none =>
    if g.1.1.Status ≠ "active" then ⟨some g.1.1, none, none, tx, g.2⟩
    else if g.1.1.CanceledAt.Valid then ⟨some g.1.1, none, none, tx, g.2⟩
    else
      -- sub, err = s.repo.CancelSubscription(tx, id)
      let c := srepo.CancelSubscription env tx id g.2
      match c.1.2 with
      | some err => ⟨none, some err, some err, tx, c.2⟩
      | none =>
        -- err = tx.Commit(); return &sub, err
        let m := Tx.Commit env tx c.2
        ⟨some c.1.1, m.1, m.1, m.2.1, m.2.2⟩

/-- Method `(*Service).CancelSubscription`, `service-connection-leak.go` lines
55-89: the pair it returns (`none` is a nil pointer) and the state. -/
def Service.CancelSubscription (env : Env Subscription) (ctx : Context) (id : Int) (s : DB) :
    (Option Subscription × Option GoError) × DB :=
  -- tx, err := s.db.BeginTxx(ctx, nil)
  match DB.BeginTxx env ctx s with
  | (.error err, s) => ((none, some err), s)
  | (.ok tx, s) =>
    let f := Service.CancelSubscription.body env tx id s
    -- the deferred closure: if err != nil, _ = tx.Rollback()
    match f.err with
    | some _ => ((f.sub, f.result), (Tx.Rollback env f.tx f.db).2.2)
    | none => ((f.sub, f.result), f.db)

end service

namespace pkg

/-- The query of `CancelSubscription` in `pkg`. -/
def updateSubscription : String :=
  "UPDATE subscription SET canceled_at = NOW() WHERE id = $1 RETURNING *"

/-- Method `(*srepo).GetSubscription`, `pkg/service-connection-leak.go` lines 18-26. -/
def srepo.GetSubscription (env : Env Subscription) (_tx : Tx) (id : Int) (s : DB) :
    (Subscription × Option GoError) × DB :=
  let r := Tx.Get env selectSubscription [id] s
  match r.1.2 with
  | some err => ((r.1.1, some err), r.2)
  | none => ((r.1.1, none), r.2)

/-- Method `(*srepo).CancelSubscription`, `pkg/service-connection-leak.go` lines 28-36. -/
def srepo.CancelSubscription (env : Env Subscription) (_tx : Tx) (id : Int) (s : DB) :
    (Subscription × Option GoError) × DB :=
  let r := Tx.Get env updateSubscription [id] s
  match r.1.2 with
  | some err => ((r.1.1, some err), r.2)
  | none => ((r.1.1, none), r.2)

/-- What the body of `CancelSubscription` leaves when it reaches a `return`:
the two results, the local variable `err`, the transaction and the state. -/
structure Service.Frame where
  sub : Option Subscription
  result : Option GoError
  err : Option GoError
  tx : Tx
  db : DB
  deriving DecidableEq, Repr

/-- Lines 60-80 of `(*Service).CancelSubscription`, up to the `return`. -/
def Service.CancelSubscription.body (env : Env Subscription) (tx : Tx) (id : Int) (s : DB) :
    Service.Frame :=
  -- sub, err := s.repo.GetSubscription(tx, id)
  let g := srepo.GetSubscription env tx id s
  match g.1.2 with
  | some err => ⟨none, some err, some err, tx, g.2⟩
  | none =>
    if g.1.1.Status ≠ "active" then ⟨some g.1.1, none, none, tx, g.2⟩
    else if g.1.1.CanceledAt.Valid then ⟨some g.1.1, none, none, tx, g.2⟩
    else
      -- sub, err = s.repo.CancelSubscription(tx, id)
      let c := srepo.CancelSubscription env tx id g.2
      match c.1.2 with
      | some err => ⟨none, some err, some err, tx, c.2⟩
      | none =>
        -- err = tx.Commit(); return &sub, err
        let m := Tx.Commit env tx c.2
        ⟨some c.1.1, m.1, m.1, m.2.1, m.2.2⟩

/-- Method `(*Service).CancelSubscription`, `pkg/service-connection-leak.go`
lines 47-81: the pair it returns (`none` is a nil pointer) and the state. -/
def Service.CancelSubscription (env : Env Subscription) (ctx : Context) (id : Int) (s : DB) :
    (Option Subscription × Option GoError) × DB :=
  -- tx, err := s.db.BeginTxx(ctx, nil)
  match DB.BeginTxx env ctx s with
  | (.error err, s) => ((none, some err), s)
  | (.ok tx, s) =>
    let f := Service.CancelSubscription.body env tx id s
    -- the deferred closure: if err != nil, _ = tx.Rollback()
    match f.err with
    | some _ => ((f.sub, f.result), (Tx.Rollback env f.tx f.db).2.2)
    | none => ((f.sub, f.result), f.db)

end pkg

/-- A database holding `rows` in table `subscription` on which every begin,
commit and rollback succeeds; it answers the `SELECT` by id. -/
def tableEnv (rows : List Subscription) : Env Subscription where
  beginTxx _ := none
  get _ query args :=
    if query = selectSubscription then
      match args with
      | [id] =>
        match rows.find? (fun r => decide (r.ID = id)) with
        | some r => (r, none)
        | none => (Subscription.zero, some "sql: no rows in result set")
      | _ => (Subscription.zero, some "pq: wrong number of parameters")
    else (Subscription.zero, some "statement outside the fixture")
  select _ _ _ := ([], none)
  exec _ _ _ := (0, none)
  commit _ := none
  rollback _ := none

/-- The rows inserted by `Test_ConnectionLeak`, `pkg/service`. -/
def service.testRows : List Subscription :=
  [⟨1, "active", ⟨"", false⟩⟩, ⟨2, "canceled", ⟨"2023-02-02 01:00:00", true⟩⟩]

/-- The rows inserted by `Test_Tx`, `pkg`. -/
def pkg.testRows : List Subscription :=
  [⟨1, "active", ⟨"", false⟩⟩, ⟨2, "canceled", ⟨"2020-01-01 00:00:00", true⟩⟩]

/-- An idle pool with an empty history. -/
def DB.idle : DB := ⟨0, []⟩

/-- A database on which begin fails (the handle is closed) and on which a
rollback, were there one, would fail too. -/
def db.closedEnv : Env Unit where
  beginTxx _ := some "sql: database is closed"
  get _ _ _ := ((), some "sql: database is closed")
  select _ _ _ := ([], some "sql: database is closed")
  exec _ _ _ := (0, some "sql: database is closed")
  commit _ := some "sql: database is closed"
  rollback _ := some "sql: database is closed"

/-- A database on which begin succeeds and both commit and rollback fail. -/
def db.brokenEnv : Env Unit where
  beginTxx _ := none
  get _ _ _ := ((), some "driver: bad connection")
  select _ _ _ := ([], some "driver: bad connection")
  exec _ _ _ := (0, some "driver: bad connection")
  commit _ := some "driver: bad connection"
  rollback _ := some "driver: bad connection"

/-- The `txfunc` of the case "success path" of `Test_Unit`. -/
def db.testSuccess : db.TxFunc Unit Unit := .ret () none

/-- The `txfunc` of the case "failure path" of `Test_Unit`. -/
def db.testFailure : db.TxFunc Unit Unit := .ret () (some "some error")

/-- The `txfunc` of the case "panic" of `Test_Unit`. -/
def db.testPanic : db.TxFunc Unit Unit := .panics () (some "some panic")

/-- A `txfunc` whose body is `panic(nil)`, with nil reaching `recover()`. -/
def db.testPanicNil : db.TxFunc Unit Unit := .panics () none

/-- The mock of `Test_Unit` with every expectation met: begin, commit and
rollback succeed; no statement is expected. -/
def db.mockEnv : Env Unit where
  beginTxx _ := none
  get _ _ _ := ((), some "call to Query was not expected")
  select _ _ _ := ([], some "call to Query was not expected")
  exec _ _ _ := (0, some "call to ExecQuery was not expected")
  commit _ := none
  rollback _ := none

/-- A `txfunc` that issues a statement and panics when it fails. -/
def db.execOrPanic : db.TxFunc Unit Unit :=
  .Exec "INSERT INTO employee (name) VALUES ('John Doe')" [] fun r =>
    match r.2 with
    | some err => .panics () (some err)
    | none => .ret () none


/-! Facts about the primitives and about running a `txFunc`. -/

theorem commits_append (a b : List Event) : commits (a ++ b) = commits a + commits b := by
  simp [commits]

theorem rollbacks_append (a b : List Event) : rollbacks (a ++ b) = rollbacks a + rollbacks b := by
  simp [rollbacks]

theorem cancels_append (c : Context) (a b : List Event) :
    cancels c (a ++ b) = cancels c a + cancels c b := by
  simp [cancels]

namespace db

theorem TxFunc.run_trace {ρ σ : Type} (env : Env ρ) (w : TxWrap) (f : TxFunc ρ σ) (s : DB) :
    (f.run env w s).2.2.trace = s.trace ++ f.stmts env w s := by
  induction f generalizing s with
  | ret st err => simp [TxFunc.run, TxFunc.stmts]
  | panics st p => simp [TxFunc.run, TxFunc.stmts]
  | Get q a k ih =>
    rw [TxFunc.run, TxFunc.stmts, ih]
    simp [TxWrap.Get, Tx.GetContext, DB.emit]
  | Select q a k ih =>
    rw [TxFunc.run, TxFunc.stmts, ih]
    simp [TxWrap.Select, Tx.SelectContext, DB.emit]
  | Exec q a k ih =>
    rw [TxFunc.run, TxFunc.stmts, ih]
    simp [TxWrap.Exec, Tx.ExecContext, DB.emit]

theorem TxFunc.run_InUse {ρ σ : Type} (env : Env ρ) (w : TxWrap) (f : TxFunc ρ σ) (s : DB) :
    (f.run env w s).2.2.InUse = s.InUse := by
  induction f generalizing s with
  | ret st err => simp [TxFunc.run]
  | panics st p => simp [TxFunc.run]
  | Get q a k ih => rw [TxFunc.run, ih]; simp [TxWrap.Get, Tx.GetContext, DB.emit]
  | Select q a k ih => rw [TxFunc.run, ih]; simp [TxWrap.Select, Tx.SelectContext, DB.emit]
  | Exec q a k ih => rw [TxFunc.run, ih]; simp [TxWrap.Exec, Tx.ExecContext, DB.emit]

theorem TxFunc.stmts_isStmt {ρ σ : Type} (env : Env ρ) (w : TxWrap) (f : TxFunc ρ σ) (s : DB) :
    ∀ e ∈ f.stmts env w s, isStmtOf w.ctx e = true := by
  induction f generalizing s with
  | ret st err => simp [TxFunc.stmts]
  | panics st p => simp [TxFunc.stmts]
  | Get q a k ih =>
    intro e he
    rw [TxFunc.stmts, List.mem_cons] at he
    rcases he with rfl | he
    · simp [isStmtOf]
    · exact ih _ _ e he
  | Select q a k ih =>
    intro e he
    rw [TxFunc.stmts, List.mem_cons] at he
    rcases he with rfl | he
    · simp [isStmtOf]
    · exact ih _ _ e he
  | Exec q a k ih =>
    intro e he
    rw [TxFunc.stmts, List.mem_cons] at he
    rcases he with rfl | he
    · simp [isStmtOf]
    · exact ih _ _ e he

theorem count_eq_zero_of_stmts (c : Context) (l : List Event) (x : Event)
    (hx : isStmtOf c x = false) (h : ∀ e ∈ l, isStmtOf c e = true) : l.count x = 0 := by
  rw [List.count_eq_zero]
  intro hmem
  have := h x hmem
  rw [hx] at this
  exact Bool.noConfusion this

theorem TxFunc.stmts_commits {ρ σ : Type} (env : Env ρ) (w : TxWrap) (f : TxFunc ρ σ) (s : DB) :
    commits (f.stmts env w s) = 0 :=
  count_eq_zero_of_stmts w.ctx _ _ rfl (TxFunc.stmts_isStmt env w f s)

theorem TxFunc.stmts_rollbacks {ρ σ : Type} (env : Env ρ) (w : TxWrap) (f : TxFunc ρ σ) (s : DB) :
    rollbacks (f.stmts env w s) = 0 :=
  count_eq_zero_of_stmts w.ctx _ _ rfl (TxFunc.stmts_isStmt env w f s)

/-- When begin fails with `e`, `InTx` is the early return followed by `cancel`. -/
theorem InTx_of_begin_error {ρ σ : Type} (env : Env ρ) (ctx : Context) (txFunc : TxFunc ρ σ)
    (st : σ) (s : DB) (e : GoError) (hb : env.beginTxx (s.trace ++ [.withCancel ctx]) = some e) :
    InTx env ctx txFunc st s =
      ⟨.returned (some e), st,
        { InUse := s.InUse,
          trace := s.trace ++ [.withCancel ctx, .beginTxx (.WithCancel ctx),
            .cancel (.WithCancel ctx)] }⟩ := by
  simp [InTx, DB.BeginTxx, DB.emit, hb]

/-- When begin succeeds, `InTx` runs `txFunc` from `InTx.entry`, then the
deferred closure, then `cancel`. -/
theorem InTx_of_begin_ok {ρ σ : Type} (env : Env ρ) (ctx : Context) (txFunc : TxFunc ρ σ)
    (st : σ) (s : DB) (hb : env.beginTxx (s.trace ++ [.withCancel ctx]) = none) :
    InTx env ctx txFunc st s =
      ⟨(match (txFunc.run env (InTx.txWrap ctx) (InTx.entry ctx s)).1 with
          | .panicked p => InTx.deferred env (InTx.txWrap ctx) p none
              (txFunc.run env (InTx.txWrap ctx) (InTx.entry ctx s)).2.2
          | .returned err => InTx.deferred env (InTx.txWrap ctx) none err
              (txFunc.run env (InTx.txWrap ctx) (InTx.entry ctx s)).2.2).1,
        (txFunc.run env (InTx.txWrap ctx) (InTx.entry ctx s)).2.1,
        (match (txFunc.run env (InTx.txWrap ctx) (InTx.entry ctx s)).1 with
          | .panicked p => InTx.deferred env (InTx.txWrap ctx) p none
              (txFunc.run env (InTx.txWrap ctx) (InTx.entry ctx s)).2.2
          | .returned err => InTx.deferred env (InTx.txWrap ctx) none err
              (txFunc.run env (InTx.txWrap ctx) (InTx.entry ctx s)).2.2).2.emit
          (.cancel (.WithCancel ctx))⟩ := by
  simp [InTx, DB.BeginTxx, DB.emit, hb, InTx.entry, InTx.txWrap]

/-- The history when `txFunc` ends, given that begin succeeded. -/
theorem InTx_body_trace {ρ σ : Type} (env : Env ρ) (ctx : Context) (txFunc : TxFunc ρ σ)
    (s : DB) :
    (txFunc.run env (InTx.txWrap ctx) (InTx.entry ctx s)).2.2.trace =
      s.trace ++ [.withCancel ctx, .beginTxx (.WithCancel ctx), .newTxWrap (.WithCancel ctx),
        .callTxFunc] ++ txFunc.stmts env (InTx.txWrap ctx) (InTx.entry ctx s) := by
  rw [TxFunc.run_trace]
  rfl

/-- Begin succeeded and `txFunc` panicked with the non-nil `v`: rollback,
cancel, re-panic. -/
theorem InTx_of_panic {ρ σ : Type} (env : Env ρ) (ctx : Context) (txFunc : TxFunc ρ σ)
    (st : σ) (s : DB) (v : String)
    (hb : env.beginTxx (s.trace ++ [.withCancel ctx]) = none)
    (hp : (txFunc.run env (InTx.txWrap ctx) (InTx.entry ctx s)).1 = .panicked (some v)) :
    InTx env ctx txFunc st s =
      ⟨.panicked (some v), (txFunc.run env (InTx.txWrap ctx) (InTx.entry ctx s)).2.1,
        { InUse := s.InUse,
          trace := (txFunc.run env (InTx.txWrap ctx) (InTx.entry ctx s)).2.2.trace ++
            [.rollback, .cancel (.WithCancel ctx)] }⟩ := by
  rw [InTx_of_begin_ok env ctx txFunc st s hb, hp]
  simp [InTx.deferred, Tx.Rollback, InTx.txWrap, DB.emit, TxFunc.run_InUse, InTx.entry]

/-- Begin succeeded and `txFunc` returned the error `e`: rollback, cancel,
return `e`. -/
theorem InTx_of_error {ρ σ : Type} (env : Env ρ) (ctx : Context) (txFunc : TxFunc ρ σ)
    (st : σ) (s : DB) (e : GoError)
    (hb : env.beginTxx (s.trace ++ [.withCancel ctx]) = none)
    (he : (txFunc.run env (InTx.txWrap ctx) (InTx.entry ctx s)).1 = .returned (some e)) :
    InTx env ctx txFunc st s =
      ⟨.returned (some e), (txFunc.run env (InTx.txWrap ctx) (InTx.entry ctx s)).2.1,
        { InUse := s.InUse,
          trace := (txFunc.run env (InTx.txWrap ctx) (InTx.entry ctx s)).2.2.trace ++
            [.rollback, .cancel (.WithCancel ctx)] }⟩ := by
  rw [InTx_of_begin_ok env ctx txFunc st s hb, he]
  simp [InTx.deferred, Tx.Rollback, InTx.txWrap, DB.emit, TxFunc.run_InUse, InTx.entry]

/-- Begin succeeded and `txFunc` returned nil: commit, cancel, return what
`Commit` returned. -/
theorem InTx_of_nil {ρ σ : Type} (env : Env ρ) (ctx : Context) (txFunc : TxFunc ρ σ)
    (st : σ) (s : DB)
    (hb : env.beginTxx (s.trace ++ [.withCancel ctx]) = none)
    (hn : (txFunc.run env (InTx.txWrap ctx) (InTx.entry ctx s)).1 = .returned none) :
    InTx env ctx txFunc st s =
      ⟨.returned (env.commit (txFunc.run env (InTx.txWrap ctx) (InTx.entry ctx s)).2.2.trace),
        (txFunc.run env (InTx.txWrap ctx) (InTx.entry ctx s)).2.1,
        { InUse := s.InUse,
          trace := (txFunc.run env (InTx.txWrap ctx) (InTx.entry ctx s)).2.2.trace ++
            [.commit, .cancel (.WithCancel ctx)] }⟩ := by
  rw [InTx_of_begin_ok env ctx txFunc st s hb, hn]
  simp [InTx.deferred, Tx.Commit, InTx.txWrap, DB.emit, TxFunc.run_InUse, InTx.entry]

/-- Begin succeeded and `txFunc` panicked with nil reaching `recover()`: the
guard `p != nil` fails, the named result is nil, so commit, cancel, and a
normal return of what `Commit` returned. -/
theorem InTx_of_nil_panic {ρ σ : Type} (env : Env ρ) (ctx : Context) (txFunc : TxFunc ρ σ)
    (st : σ) (s : DB)
    (hb : env.beginTxx (s.trace ++ [.withCancel ctx]) = none)
    (hn : (txFunc.run env (InTx.txWrap ctx) (InTx.entry ctx s)).1 = .panicked none) :
    InTx env ctx txFunc st s =
      ⟨.returned (env.commit (txFunc.run env (InTx.txWrap ctx) (InTx.entry ctx s)).2.2.trace),
        (txFunc.run env (InTx.txWrap ctx) (InTx.entry ctx s)).2.1,
        { InUse := s.InUse,
          trace := (txFunc.run env (InTx.txWrap ctx) (InTx.entry ctx s)).2.2.trace ++
            [.commit, .cancel (.WithCancel ctx)] }⟩ := by
  rw [InTx_of_begin_ok env ctx txFunc st s hb, hn]
  simp [InTx.deferred, Tx.Commit, InTx.txWrap, DB.emit, TxFunc.run_InUse, InTx.entry]

/-- The four ways a `txFunc` ends, as `InTx` sees them. -/
theorem TxFunc.exit_cases {ρ σ : Type} (env : Env ρ) (w : TxWrap) (f : TxFunc ρ σ) (s : DB) :
    (f.run env w s).1 = .returned none ∨ (∃ e, (f.run env w s).1 = .returned (some e)) ∨
      (∃ v, (f.run env w s).1 = .panicked (some v)) ∨ (f.run env w s).1 = .panicked none := by
  rcases h : (f.run env w s).1 with (_ | e) | (_ | v)
  · exact Or.inl rfl
  · exact Or.inr (Or.inl ⟨e, rfl⟩)
  · exact Or.inr (Or.inr (Or.inr rfl))
  · exact Or.inr (Or.inr (Or.inl ⟨v, rfl⟩))

theorem commits_body {ρ σ : Type} (env : Env ρ) (ctx : Context) (txFunc : TxFunc ρ σ) (s : DB) :
    commits (txFunc.run env (InTx.txWrap ctx) (InTx.entry ctx s)).2.2.trace = commits s.trace := by
  rw [InTx_body_trace, commits_append, commits_append, TxFunc.stmts_commits]
  simp [commits]

theorem rollbacks_body {ρ σ : Type} (env : Env ρ) (ctx : Context) (txFunc : TxFunc ρ σ)
    (s : DB) :
    rollbacks (txFunc.run env (InTx.txWrap ctx) (InTx.entry ctx s)).2.2.trace =
      rollbacks s.trace := by
  rw [InTx_body_trace, rollbacks_append, rollbacks_append, TxFunc.stmts_rollbacks]
  simp [rollbacks]

end db

/-! The claims. -/

/-- C1. Exactly-once resolution: when begin succeeds, whatever `txFunc` does
and whatever `Commit` and `Rollback` return, the call of `InTx` adds to the
history either one `Commit` and no `Rollback`, or one `Rollback` and no
`Commit`. -/
theorem InTx_exactly_once_resolution {ρ σ : Type} (env : Env ρ) (ctx : Context)
    (txFunc : db.TxFunc ρ σ) (st : σ) (s : DB)
    (hb : env.beginTxx (s.trace ++ [.withCancel ctx]) = none) :
    (commits (db.InTx env ctx txFunc st s).db.trace = commits s.trace + 1 ∧
        rollbacks (db.InTx env ctx txFunc st s).db.trace = rollbacks s.trace) ∨
      (commits (db.InTx env ctx txFunc st s).db.trace = commits s.trace ∧
        rollbacks (db.InTx env ctx txFunc st s).db.trace = rollbacks s.trace + 1) := by
  rcases db.TxFunc.exit_cases env (db.InTx.txWrap ctx) txFunc (db.InTx.entry ctx s) with
    hn | ⟨e, he⟩ | ⟨p, hp⟩ | hz
  · left
    rw [db.InTx_of_nil env ctx txFunc st s hb hn]
    simp only [commits_append, rollbacks_append, db.commits_body, db.rollbacks_body]
    simp [commits, rollbacks]
  · right
    rw [db.InTx_of_error env ctx txFunc st s e hb he]
    simp only [commits_append, rollbacks_append, db.commits_body, db.rollbacks_body]
    simp [commits, rollbacks]
  · right
    rw [db.InTx_of_panic env ctx txFunc st s p hb hp]
    simp only [commits_append, rollbacks_append, db.commits_body, db.rollbacks_body]
    simp [commits, rollbacks]
  · left
    rw [db.InTx_of_nil_panic env ctx txFunc st s hb hz]
    simp only [commits_append, rollbacks_append, db.commits_body, db.rollbacks_body]
    simp [commits, rollbacks]

/-- C1 at the panicking `txfunc` of `Test_Unit` on a database whose rollback
fails. -/
theorem InTx_exactly_once_resolution_witness :
    db.brokenEnv.beginTxx (DB.idle.trace ++ [.withCancel .Background]) = none ∧
      ((commits (db.InTx db.brokenEnv .Background db.testPanic () DB.idle).db.trace =
            commits DB.idle.trace + 1 ∧
          rollbacks (db.InTx db.brokenEnv .Background db.testPanic () DB.idle).db.trace =
            rollbacks DB.idle.trace) ∨
        (commits (db.InTx db.brokenEnv .Background db.testPanic () DB.idle).db.trace =
            commits DB.idle.trace ∧
          rollbacks (db.InTx db.brokenEnv .Background db.testPanic () DB.idle).db.trace =
            rollbacks DB.idle.trace + 1)) :=
  ⟨rfl, InTx_exactly_once_resolution db.brokenEnv .Background db.testPanic () DB.idle rfl⟩


/-- The non-nil case of the fault re-raise: when begin succeeds and `txFunc`
panics with a non-nil value `v`, the call of `InTx` ends by panicking with
that same `v`, never by returning; the history is the one `txFunc` left
followed by one `Rollback` and the `cancel`, with no `Commit`, whatever
`Rollback` returned. -/
theorem InTx_nonnil_panic_reraised {ρ σ : Type} (env : Env ρ) (ctx : Context)
    (txFunc : db.TxFunc ρ σ) (st : σ) (s : DB) (v : String)
    (hb : env.beginTxx (s.trace ++ [.withCancel ctx]) = none)
    (hp : (txFunc.run env (db.InTx.txWrap ctx) (db.InTx.entry ctx s)).1 = .panicked (some v)) :
    (db.InTx env ctx txFunc st s).exit = .panicked (some v) ∧
      (∀ r, (db.InTx env ctx txFunc st s).exit ≠ .returned r) ∧
      (db.InTx env ctx txFunc st s).db.trace =
        (txFunc.run env (db.InTx.txWrap ctx) (db.InTx.entry ctx s)).2.2.trace ++
          [.rollback, .cancel (.WithCancel ctx)] ∧
      rollbacks (db.InTx env ctx txFunc st s).db.trace = rollbacks s.trace + 1 ∧
      commits (db.InTx env ctx txFunc st s).db.trace = commits s.trace := by
  rw [db.InTx_of_panic env ctx txFunc st s v hb hp]
  refine ⟨rfl, ?_, rfl, ?_, ?_⟩
  · intro r h
    exact Exit.noConfusion h
  · simp only [rollbacks_append, db.rollbacks_body]
    simp [rollbacks]
  · simp only [commits_append, db.commits_body]
    simp [commits]

/-- The non-nil case at a `txfunc` that panics with the error of a failed
statement, on a database whose rollback fails. -/
theorem InTx_nonnil_panic_reraised_example :
    (db.InTx db.brokenEnv .Background db.execOrPanic () DB.idle).exit =
        .panicked (some "driver: bad connection") ∧
      (db.InTx db.brokenEnv .Background db.execOrPanic () DB.idle).db.trace =
        [.withCancel .Background, .beginTxx (.WithCancel .Background),
          .newTxWrap (.WithCancel .Background), .callTxFunc,
          .exec (.WithCancel .Background)
            "INSERT INTO employee (name) VALUES ('John Doe')" [],
          .rollback, .cancel (.WithCancel .Background)] := by
  have h := InTx_nonnil_panic_reraised db.brokenEnv .Background db.execOrPanic () DB.idle
    "driver: bad connection" rfl rfl
  exact ⟨h.1, by rw [h.2.2.1]; rfl⟩

/-- C2, the code at `panic(nil)`: on a database where begin, commit and
rollback all succeed and from an idle pool, when `txFunc` panics with nil
reaching `recover()`, the guard `p != nil` of the deferred closure fails and
the named result is nil: `InTx` does not panic again but returns nil, and
the history of the call holds one `Commit` and no `Rollback`. The doc comment
of `InTx` and the claim say: rolled back, and the panic re-raised. -/
theorem InTx_panic_nil_commits :
    (db.testPanicNil.run db.mockEnv (db.InTx.txWrap .Background)
        (db.InTx.entry .Background DB.idle)).1 = .panicked none ∧
      (db.InTx db.mockEnv .Background db.testPanicNil () DB.idle).exit = .returned none ∧
      (db.InTx db.mockEnv .Background db.testPanicNil () DB.idle).exit ≠ .panicked none ∧
      (db.InTx db.mockEnv .Background db.testPanicNil () DB.idle).db.trace =
        [.withCancel .Background, .beginTxx (.WithCancel .Background),
          .newTxWrap (.WithCancel .Background), .callTxFunc, .commit,
          .cancel (.WithCancel .Background)] ∧
      rollbacks (db.InTx db.mockEnv .Background db.testPanicNil () DB.idle).db.trace = 0 ∧
      commits (db.InTx db.mockEnv .Background db.testPanicNil () DB.idle).db.trace = 1 := by
  decide

/-- C3. Failure path: when begin succeeds and `txFunc` returns the non-nil
error `e`, `InTx` returns exactly `e`; the history is the one `txFunc` left
followed by one `Rollback` and the `cancel`, with no `Commit`. The result of
`Rollback` does not appear in what is returned. -/
theorem InTx_failure_path {ρ σ : Type} (env : Env ρ) (ctx : Context)
    (txFunc : db.TxFunc ρ σ) (st : σ) (s : DB) (e : GoError)
    (hb : env.beginTxx (s.trace ++ [.withCancel ctx]) = none)
    (he : (txFunc.run env (db.InTx.txWrap ctx) (db.InTx.entry ctx s)).1 = .returned (some e)) :
    (db.InTx env ctx txFunc st s).exit = .returned (some e) ∧
      (db.InTx env ctx txFunc st s).db.trace =
        (txFunc.run env (db.InTx.txWrap ctx) (db.InTx.entry ctx s)).2.2.trace ++
          [.rollback, .cancel (.WithCancel ctx)] ∧
      rollbacks (db.InTx env ctx txFunc st s).db.trace = rollbacks s.trace + 1 ∧
      commits (db.InTx env ctx txFunc st s).db.trace = commits s.trace := by
  rw [db.InTx_of_error env ctx txFunc st s e hb he]
  refine ⟨rfl, rfl, ?_, ?_⟩
  · simp only [rollbacks_append, db.rollbacks_body]
    simp [rollbacks]
  · simp only [commits_append, db.commits_body]
    simp [commits]

/-- C3 at the failing `txfunc` of `Test_Unit`, on a database whose rollback
fails with another error. -/
theorem InTx_failure_path_witness :
    (db.brokenEnv.beginTxx (DB.idle.trace ++ [.withCancel .Background]) = none ∧
      (db.testFailure.run db.brokenEnv (db.InTx.txWrap .Background)
        (db.InTx.entry .Background DB.idle)).1 = .returned (some "some error")) ∧
    ((db.InTx db.brokenEnv .Background db.testFailure () DB.idle).exit =
        .returned (some "some error") ∧
      (db.InTx db.brokenEnv .Background db.testFailure () DB.idle).db.trace =
        (db.testFailure.run db.brokenEnv (db.InTx.txWrap .Background)
          (db.InTx.entry .Background DB.idle)).2.2.trace ++
          [.rollback, .cancel (.WithCancel .Background)] ∧
      rollbacks (db.InTx db.brokenEnv .Background db.testFailure () DB.idle).db.trace =
        rollbacks DB.idle.trace + 1 ∧
      commits (db.InTx db.brokenEnv .Background db.testFailure () DB.idle).db.trace =
        commits DB.idle.trace) :=
  ⟨⟨rfl, rfl⟩,
    InTx_failure_path db.brokenEnv .Background db.testFailure () DB.idle "some error" rfl rfl⟩

/-- C4. Success path: when begin succeeds and `txFunc` returns nil, `InTx`
attempts `Commit` and returns exactly what `Commit` returned, nil or an
error; the history is the one `txFunc` left followed by that one `Commit` and
the `cancel`, with no `Rollback`, also when `Commit` failed. -/
theorem InTx_success_path {ρ σ : Type} (env : Env ρ) (ctx : Context)
    (txFunc : db.TxFunc ρ σ) (st : σ) (s : DB)
    (hb : env.beginTxx (s.trace ++ [.withCancel ctx]) = none)
    (hn : (txFunc.run env (db.InTx.txWrap ctx) (db.InTx.entry ctx s)).1 = .returned none) :
    (db.InTx env ctx txFunc st s).exit =
        .returned (Tx.Commit env (db.InTx.txWrap ctx).tx
          (txFunc.run env (db.InTx.txWrap ctx) (db.InTx.entry ctx s)).2.2).1 ∧
      (db.InTx env ctx txFunc st s).exit =
        .returned (env.commit
          (txFunc.run env (db.InTx.txWrap ctx) (db.InTx.entry ctx s)).2.2.trace) ∧
      (db.InTx env ctx txFunc st s).db.trace =
        (txFunc.run env (db.InTx.txWrap ctx) (db.InTx.entry ctx s)).2.2.trace ++
          [.commit, .cancel (.WithCancel ctx)] ∧
      commits (db.InTx env ctx txFunc st s).db.trace = commits s.trace + 1 ∧
      rollbacks (db.InTx env ctx txFunc st s).db.trace = rollbacks s.trace := by
  rw [db.InTx_of_nil env ctx txFunc st s hb hn]
  refine ⟨rfl, rfl, rfl, ?_, ?_⟩
  · simp only [commits_append, db.commits_body]
    simp [commits]
  · simp only [rollbacks_append, db.rollbacks_body]
    simp [rollbacks]

/-- C4 at the succeeding `txfunc` of `Test_Unit`, on a database whose commit
fails. -/
theorem InTx_success_path_witness :
    (db.brokenEnv.beginTxx (DB.idle.trace ++ [.withCancel .Background]) = none ∧
      (db.testSuccess.run db.brokenEnv (db.InTx.txWrap .Background)
        (db.InTx.entry .Background DB.idle)).1 = .returned none) ∧
    ((db.InTx db.brokenEnv .Background db.testSuccess () DB.idle).exit =
        .returned (Tx.Commit db.brokenEnv (db.InTx.txWrap .Background).tx
          (db.testSuccess.run db.brokenEnv (db.InTx.txWrap .Background)
            (db.InTx.entry .Background DB.idle)).2.2).1 ∧
      (db.InTx db.brokenEnv .Background db.testSuccess () DB.idle).exit =
        .returned (db.brokenEnv.commit
          (db.testSuccess.run db.brokenEnv (db.InTx.txWrap .Background)
            (db.InTx.entry .Background DB.idle)).2.2.trace) ∧
      (db.InTx db.brokenEnv .Background db.testSuccess () DB.idle).db.trace =
        (db.testSuccess.run db.brokenEnv (db.InTx.txWrap .Background)
          (db.InTx.entry .Background DB.idle)).2.2.trace ++
          [.commit, .cancel (.WithCancel .Background)] ∧
      commits (db.InTx db.brokenEnv .Background db.testSuccess () DB.idle).db.trace =
        commits DB.idle.trace + 1 ∧
      rollbacks (db.InTx db.brokenEnv .Background db.testSuccess () DB.idle).db.trace =
        rollbacks DB.idle.trace) :=
  ⟨⟨rfl, rfl⟩, InTx_success_path db.brokenEnv .Background db.testSuccess () DB.idle rfl rfl⟩

/-- C5. Begin failure: when beginning the transaction fails with `e`, `InTx`
returns exactly `e`; the variables captured by `txFunc` are untouched, the
pool is untouched, and the whole history of the call is `WithCancel`, the
failed `BeginTxx` and the `cancel`: no `TxWrap` is built, `txFunc` is not
called, and neither `Commit` nor `Rollback` is attempted. -/
theorem InTx_begin_failure {ρ σ : Type} (env : Env ρ) (ctx : Context)
    (txFunc : db.TxFunc ρ σ) (st : σ) (s : DB) (e : GoError)
    (hb : env.beginTxx (s.trace ++ [.withCancel ctx]) = some e) :
    (db.InTx env ctx txFunc st s).exit = .returned (some e) ∧
      (db.InTx env ctx txFunc st s).captured = st ∧
      (db.InTx env ctx txFunc st s).db.InUse = s.InUse ∧
      (db.InTx env ctx txFunc st s).db.trace =
        s.trace ++ [.withCancel ctx, .beginTxx (.WithCancel ctx), .cancel (.WithCancel ctx)] ∧
      (db.InTx env ctx txFunc st s).db.trace.count .callTxFunc = s.trace.count .callTxFunc ∧
      (db.InTx env ctx txFunc st s).db.trace.count (.newTxWrap (.WithCancel ctx)) =
        s.trace.count (.newTxWrap (.WithCancel ctx)) ∧
      commits (db.InTx env ctx txFunc st s).db.trace = commits s.trace ∧
      rollbacks (db.InTx env ctx txFunc st s).db.trace = rollbacks s.trace := by
  rw [db.InTx_of_begin_error env ctx txFunc st s e hb]
  refine ⟨rfl, rfl, rfl, rfl, ?_, ?_, ?_, ?_⟩
  · simp
  · simp
  · simp [commits]
  · simp [rollbacks]

/-- C5 at the succeeding `txfunc` of `Test_Unit` on a closed database. -/
theorem InTx_begin_failure_witness :
    db.closedEnv.beginTxx (DB.idle.trace ++ [.withCancel .Background]) =
        some "sql: database is closed" ∧
    ((db.InTx db.closedEnv .Background db.testSuccess () DB.idle).exit =
        .returned (some "sql: database is closed") ∧
      (db.InTx db.closedEnv .Background db.testSuccess () DB.idle).captured = () ∧
      (db.InTx db.closedEnv .Background db.testSuccess () DB.idle).db.InUse = DB.idle.InUse ∧
      (db.InTx db.closedEnv .Background db.testSuccess () DB.idle).db.trace =
        DB.idle.trace ++ [.withCancel .Background, .beginTxx (.WithCancel .Background),
          .cancel (.WithCancel .Background)] ∧
      (db.InTx db.closedEnv .Background db.testSuccess () DB.idle).db.trace.count .callTxFunc =
        DB.idle.trace.count .callTxFunc ∧
      (db.InTx db.closedEnv .Background db.testSuccess () DB.idle).db.trace.count
          (.newTxWrap (.WithCancel .Background)) =
        DB.idle.trace.count (.newTxWrap (.WithCancel .Background)) ∧
      commits (db.InTx db.closedEnv .Background db.testSuccess () DB.idle).db.trace =
        commits DB.idle.trace ∧
      rollbacks (db.InTx db.closedEnv .Background db.testSuccess () DB.idle).db.trace =
        rollbacks DB.idle.trace) :=
  ⟨rfl, InTx_begin_failure db.closedEnv .Background db.testSuccess () DB.idle
    "sql: database is closed" rfl⟩

/-- C6. No-leak invariant: with the pool's in-use counter incremented by a
successful begin and decremented by the attempt to commit or roll back,
the counter after `InTx` returned or re-panicked equals the counter before
the call, whether begin failed or `txFunc` returned nil, returned an error
or panicked; from an idle pool it is 0. -/
theorem InTx_no_leak {ρ σ : Type} (env : Env ρ) (ctx : Context) (txFunc : db.TxFunc ρ σ)
    (st : σ) (s : DB) :
    (db.InTx env ctx txFunc st s).db.InUse = s.InUse ∧
      (db.InTx env ctx txFunc st { DB.idle with trace := s.trace }).db.InUse = 0 := by
  have key : ∀ s' : DB, (db.InTx env ctx txFunc st s').db.InUse = s'.InUse := by
    intro s'
    cases hb : env.beginTxx (s'.trace ++ [.withCancel ctx]) with
    | some e => rw [db.InTx_of_begin_error env ctx txFunc st s' e hb]
    | none =>
      rcases db.TxFunc.exit_cases env (db.InTx.txWrap ctx) txFunc (db.InTx.entry ctx s') with
        hn | ⟨e, he⟩ | ⟨p, hp⟩ | hz
      · rw [db.InTx_of_nil env ctx txFunc st s' hb hn]
      · rw [db.InTx_of_error env ctx txFunc st s' e hb he]
      · rw [db.InTx_of_panic env ctx txFunc st s' p hb hp]
      · rw [db.InTx_of_nil_panic env ctx txFunc st s' hb hz]
  exact ⟨key s, key _⟩

/-- C7. Context cancellation: on every exit path the history of the call of
`InTx` ends with the `cancel` of the derived context, and nothing before it
in the call is a `cancel`: it is called exactly once, as the last event, so
every `Commit` or `Rollback` attempt of the call comes before it. -/
theorem InTx_cancel_last {ρ σ : Type} (env : Env ρ) (ctx : Context) (txFunc : db.TxFunc ρ σ)
    (st : σ) (s : DB) :
    ∃ pre : List Event,
      (db.InTx env ctx txFunc st s).db.trace = s.trace ++ pre ++ [.cancel (.WithCancel ctx)] ∧
      (∀ c, Event.cancel c ∉ pre) ∧
      cancels (.WithCancel ctx) (pre ++ [.cancel (.WithCancel ctx)]) = 1 ∧
      commits (s.trace ++ pre) = commits (db.InTx env ctx txFunc st s).db.trace ∧
      rollbacks (s.trace ++ pre) = rollbacks (db.InTx env ctx txFunc st s).db.trace := by
  have stmts_no_cancel : ∀ c, Event.cancel c ∉
      txFunc.stmts env (db.InTx.txWrap ctx) (db.InTx.entry ctx s) := by
    intro c hc
    have := db.TxFunc.stmts_isStmt env (db.InTx.txWrap ctx) txFunc (db.InTx.entry ctx s) _ hc
    exact Bool.noConfusion this
  have fin : ∀ (pre : List Event) (t : List Event),
      t = s.trace ++ pre ++ [.cancel (.WithCancel ctx)] → (∀ c, Event.cancel c ∉ pre) →
      t = s.trace ++ pre ++ [.cancel (.WithCancel ctx)] ∧
      (∀ c, Event.cancel c ∉ pre) ∧
      cancels (.WithCancel ctx) (pre ++ [.cancel (.WithCancel ctx)]) = 1 ∧
      commits (s.trace ++ pre) = commits t ∧ rollbacks (s.trace ++ pre) = rollbacks t := by
    intro pre t ht hpre
    refine ⟨ht, hpre, ?_, ?_, ?_⟩
    · rw [cancels_append]
      have : cancels (.WithCancel ctx) pre = 0 := by
        rw [cancels, List.count_eq_zero]
        exact hpre _
      rw [this]
      simp [cancels]
    · rw [ht, commits_append (s.trace ++ pre)]
      simp [commits]
    · rw [ht, rollbacks_append (s.trace ++ pre)]
      simp [rollbacks]
  cases hb : env.beginTxx (s.trace ++ [.withCancel ctx]) with
  | some e =>
    refine ⟨[.withCancel ctx, .beginTxx (.WithCancel ctx)], fin _ _ ?_ ?_⟩
    · rw [db.InTx_of_begin_error env ctx txFunc st s e hb]
      simp
    · intro c hc
      simp at hc
  | none =>
    rcases db.TxFunc.exit_cases env (db.InTx.txWrap ctx) txFunc (db.InTx.entry ctx s) with
      hn | ⟨e, he⟩ | ⟨p, hp⟩ | hz
    · refine ⟨[.withCancel ctx, .beginTxx (.WithCancel ctx), .newTxWrap (.WithCancel ctx),
        .callTxFunc] ++ txFunc.stmts env (db.InTx.txWrap ctx) (db.InTx.entry ctx s) ++
        [.commit], fin _ _ ?_ ?_⟩
      · rw [db.InTx_of_nil env ctx txFunc st s hb hn, db.InTx_body_trace]
        simp
      · intro c hc
        simp at hc
        exact stmts_no_cancel c hc
    · refine ⟨[.withCancel ctx, .beginTxx (.WithCancel ctx), .newTxWrap (.WithCancel ctx),
        .callTxFunc] ++ txFunc.stmts env (db.InTx.txWrap ctx) (db.InTx.entry ctx s) ++
        [.rollback], fin _ _ ?_ ?_⟩
      · rw [db.InTx_of_error env ctx txFunc st s e hb he, db.InTx_body_trace]
        simp
      · intro c hc
        simp at hc
        exact stmts_no_cancel c hc
    · refine ⟨[.withCancel ctx, .beginTxx (.WithCancel ctx), .newTxWrap (.WithCancel ctx),
        .callTxFunc] ++ txFunc.stmts env (db.InTx.txWrap ctx) (db.InTx.entry ctx s) ++
        [.rollback], fin _ _ ?_ ?_⟩
      · rw [db.InTx_of_panic env ctx txFunc st s p hb hp, db.InTx_body_trace]
        simp
      · intro c hc
        simp at hc
        exact stmts_no_cancel c hc
    · refine ⟨[.withCancel ctx, .beginTxx (.WithCancel ctx), .newTxWrap (.WithCancel ctx),
        .callTxFunc] ++ txFunc.stmts env (db.InTx.txWrap ctx) (db.InTx.entry ctx s) ++
        [.commit], fin _ _ ?_ ?_⟩
      · rw [db.InTx_of_nil_panic env ctx txFunc st s hb hz, db.InTx_body_trace]
        simp
      · intro c hc
        simp at hc
        exact stmts_no_cancel c hc

/-- C8. Business no-op through the safe pattern: when begin succeeds and the
read of subscription `id` succeeds with a row whose status is not "active" or
whose `canceled_at` is valid, `CancelSubscriptionWithoutLeak` issues that one
read and no update, the transaction is committed and not rolled back, the
call returns the row as read together with the result of `Commit`, and the
pool's in-use count is what it was before the call. -/
theorem CancelSubscriptionWithoutLeak_noop (env : Env Subscription) (ctx : Context) (id : Int)
    (s : DB) (sub : Subscription)
    (hb : env.beginTxx (s.trace ++ [.withCancel ctx]) = none)
    (hg : env.get (s.trace ++ [.withCancel ctx, .beginTxx (.WithCancel ctx),
      .newTxWrap (.WithCancel ctx), .callTxFunc]) selectSubscription [id] = (sub, none))
    (hs : sub.Status ≠ "active" ∨ sub.CanceledAt.Valid = true) :
    service.txService.CancelSubscriptionWithoutLeak env ctx id s =
      (.returned (sub, env.commit (s.trace ++ [.withCancel ctx, .beginTxx (.WithCancel ctx),
          .newTxWrap (.WithCancel ctx), .callTxFunc,
          .get (.WithCancel ctx) selectSubscription [id]])),
        { InUse := s.InUse,
          trace := s.trace ++ [.withCancel ctx, .beginTxx (.WithCancel ctx),
            .newTxWrap (.WithCancel ctx), .callTxFunc,
            .get (.WithCancel ctx) selectSubscription [id], .commit,
            .cancel (.WithCancel ctx)] }) := by
  have hrun : (service.txService.CancelSubscriptionWithoutLeak.txFunc id).run env
      (db.InTx.txWrap ctx) (db.InTx.entry ctx s) =
      (.returned none, (sub, none),
        (db.InTx.entry ctx s).emit (.get (.WithCancel ctx) selectSubscription [id])) := by
    have hg2 : env.get (db.InTx.entry ctx s).trace selectSubscription [id] = (sub, none) := hg
    rcases hs with hs | hs
    · simp [service.txService.CancelSubscriptionWithoutLeak.txFunc,
        service.txRepo.GetSubscription, db.TxFunc.run, db.TxWrap.Get, Tx.GetContext, hg2, hs,
        db.InTx.txWrap]
    · by_cases hst : sub.Status = "active"
      · simp [service.txService.CancelSubscriptionWithoutLeak.txFunc,
          service.txRepo.GetSubscription, db.TxFunc.run, db.TxWrap.Get, Tx.GetContext, hg2, hs,
          hst, db.InTx.txWrap]
      · simp [service.txService.CancelSubscriptionWithoutLeak.txFunc,
          service.txRepo.GetSubscription, db.TxFunc.run, db.TxWrap.Get, Tx.GetContext, hg2,
          hst, db.InTx.txWrap]
  have hn : ((service.txService.CancelSubscriptionWithoutLeak.txFunc id).run env
      (db.InTx.txWrap ctx) (db.InTx.entry ctx s)).1 = .returned none := by rw [hrun]
  rw [service.txService.CancelSubscriptionWithoutLeak,
    db.InTx_of_nil env ctx _ _ s hb hn, hrun]
  simp [DB.emit, db.InTx.entry]

/-- C9. The manual pattern leaks on early return: when begin succeeds and the
read of subscription `id` succeeds with a row whose status is not "active" or
whose `canceled_at` is valid, `Service.CancelSubscription` of `pkg/service`
returns that row with a nil error, its whole history is the begin and the
read, with neither `Commit` nor `Rollback`, and the pool's in-use count is
one more than before the call. -/
theorem Service_CancelSubscription_leaks (env : Env Subscription) (ctx : Context) (id : Int)
    (s : DB) (sub : Subscription)
    (hb : env.beginTxx s.trace = none)
    (hg : env.get (s.trace ++ [.beginTxx ctx]) selectSubscription [id] = (sub, none))
    (hs : sub.Status ≠ "active" ∨ sub.CanceledAt.Valid = true) :
    service.Service.CancelSubscription env ctx id s =
        ((some sub, none),
          { InUse := s.InUse + 1,
            trace := s.trace ++ [.beginTxx ctx, .get .Background selectSubscription [id]] }) ∧
      commits (service.Service.CancelSubscription env ctx id s).2.trace = commits s.trace ∧
      rollbacks (service.Service.CancelSubscription env ctx id s).2.trace = rollbacks s.trace := by
  have key : service.Service.CancelSubscription env ctx id s =
      ((some sub, none),
        { InUse := s.InUse + 1,
          trace := s.trace ++ [.beginTxx ctx, .get .Background selectSubscription [id]] }) := by
    rcases hs with hs | hs
    · simp [service.Service.CancelSubscription, DB.BeginTxx, hb,
        service.Service.CancelSubscription.body, service.srepo.GetSubscription, Tx.Get,
        Tx.GetContext, hg, hs, DB.emit]
    · by_cases hst : sub.Status = "active"
      · simp [service.Service.CancelSubscription, DB.BeginTxx, hb,
          service.Service.CancelSubscription.body, service.srepo.GetSubscription, Tx.Get,
          Tx.GetContext, hg, hs, hst, DB.emit]
      · simp [service.Service.CancelSubscription, DB.BeginTxx, hb,
          service.Service.CancelSubscription.body, service.srepo.GetSubscription, Tx.Get,
          Tx.GetContext, hg, hst, DB.emit]
  rw [key]
  refine ⟨rfl, ?_, ?_⟩
  · simp [commits, selectSubscription]
  · simp [rollbacks, selectSubscription]

/-- C8 at the rows of `Test_ConnectionLeak`, id 2, from an idle pool. -/
theorem CancelSubscriptionWithoutLeak_noop_witness :
    ((tableEnv service.testRows).beginTxx (DB.idle.trace ++ [.withCancel .Background]) = none ∧
      (tableEnv service.testRows).get (DB.idle.trace ++ [.withCancel .Background,
        .beginTxx (.WithCancel .Background), .newTxWrap (.WithCancel .Background),
        .callTxFunc]) selectSubscription [2] =
        (⟨2, "canceled", ⟨"2023-02-02 01:00:00", true⟩⟩, none) ∧
      ((⟨2, "canceled", ⟨"2023-02-02 01:00:00", true⟩⟩ : Subscription).Status ≠ "active" ∨
        (⟨2, "canceled", ⟨"2023-02-02 01:00:00", true⟩⟩ : Subscription).CanceledAt.Valid =
          true)) ∧
    service.txService.CancelSubscriptionWithoutLeak (tableEnv service.testRows) .Background 2
        DB.idle =
      (.returned (⟨2, "canceled", ⟨"2023-02-02 01:00:00", true⟩⟩,
          (tableEnv service.testRows).commit (DB.idle.trace ++ [.withCancel .Background,
            .beginTxx (.WithCancel .Background), .newTxWrap (.WithCancel .Background),
            .callTxFunc, .get (.WithCancel .Background) selectSubscription [2]])),
        { InUse := DB.idle.InUse,
          trace := DB.idle.trace ++ [.withCancel .Background,
            .beginTxx (.WithCancel .Background), .newTxWrap (.WithCancel .Background),
            .callTxFunc, .get (.WithCancel .Background) selectSubscription [2], .commit,
            .cancel (.WithCancel .Background)] }) :=
  ⟨⟨rfl, by decide, Or.inr rfl⟩,
    CancelSubscriptionWithoutLeak_noop (tableEnv service.testRows) .Background 2 DB.idle
      ⟨2, "canceled", ⟨"2023-02-02 01:00:00", true⟩⟩ rfl (by decide) (Or.inr rfl)⟩

/-- C9 at `Test_ConnectionLeak`: the rows it inserts, id 2, an idle pool; the
in-use count is 1 afterwards. -/
theorem Service_CancelSubscription_leaks_witness :
    ((tableEnv service.testRows).beginTxx DB.idle.trace = none ∧
      (tableEnv service.testRows).get (DB.idle.trace ++ [.beginTxx .Background])
        selectSubscription [2] = (⟨2, "canceled", ⟨"2023-02-02 01:00:00", true⟩⟩, none) ∧
      ((⟨2, "canceled", ⟨"2023-02-02 01:00:00", true⟩⟩ : Subscription).Status ≠ "active" ∨
        (⟨2, "canceled", ⟨"2023-02-02 01:00:00", true⟩⟩ : Subscription).CanceledAt.Valid =
          true)) ∧
    (service.Service.CancelSubscription (tableEnv service.testRows) .Background 2 DB.idle =
        ((some ⟨2, "canceled", ⟨"2023-02-02 01:00:00", true⟩⟩, none),
          { InUse := DB.idle.InUse + 1,
            trace := DB.idle.trace ++
              [.beginTxx .Background, .get .Background selectSubscription [2]] }) ∧
      commits (service.Service.CancelSubscription (tableEnv service.testRows) .Background 2
        DB.idle).2.trace = commits DB.idle.trace ∧
      rollbacks (service.Service.CancelSubscription (tableEnv service.testRows) .Background 2
        DB.idle).2.trace = rollbacks DB.idle.trace) :=
  ⟨⟨rfl, by decide, Or.inr rfl⟩,
    Service_CancelSubscription_leaks (tableEnv service.testRows) .Background 2 DB.idle
      ⟨2, "canceled", ⟨"2023-02-02 01:00:00", true⟩⟩ rfl (by decide) (Or.inr rfl)⟩

/-- C10, the code at the input of `Test_Tx`: on the rows the test inserts, id
2 and an idle pool, `Service.CancelSubscription` of `pkg` returns the row with
status "canceled" and a nil error, after a begin and a read and neither
`Commit` nor `Rollback`; the in-use count is 1, where the test asserts 0. -/
theorem pkg_CancelSubscription_Test_Tx :
    pkg.Service.CancelSubscription (tableEnv pkg.testRows) .Background 2 DB.idle =
        ((some ⟨2, "canceled", ⟨"2020-01-01 00:00:00", true⟩⟩, none),
          { InUse := 1,
            trace := [.beginTxx .Background, .get .Background selectSubscription [2]] }) ∧
      (pkg.Service.CancelSubscription (tableEnv pkg.testRows) .Background 2
        DB.idle).2.InUse ≠ 0 := by
  decide
